import Mathlib

/-!
Verification development for `lsd/persistence/mongodb_rag_provider.py`.

The file embeds the module shallowly:

* `SubGraph` models the in-memory `MongoDbSubRag` (a networkx graph plus the
  access mode it was extracted under);
* `MongoState` models the state of the named MongoDB database (both
  collections and their indexes);
* `sub_contains`, `sync_edges`, `sync_nodes` embed the methods of
  `MongoDbSubRag`;
* `providerInit`, `readNodes`, `extractGraph`, `getitem` embed
  `MongoDbRagProvider.__init__`, `__read_nodes` and `__getitem__`;
* `insertManyMongo` embeds pymongo's `insert_many` against a collection with a
  unique index: the `ordered` flag (pymongo's default is `ordered=True`, and
  the source passes no `ordered` argument) decides whether a duplicate key
  aborts the remainder of the batch.

Machine integers of the source are modelled as `Int`; attribute dictionaries
as association lists.  The embedding assumes the unique indexes created by
`__setup_db` are in place when a sync call inserts, which is the state the
provider establishes on every open of a fresh database.
-/

/-- A 3D coordinate `(z, y, x)` as built by `Coordinate((z, y, x))`. -/
abbrev Coord3 := Int × Int × Int

/-- An attribute dictionary (`data`) carried by a node or an edge. -/
abbrev Attrs := List (String × Int)

/-- A daisy region of interest: `get_begin()` and `get_end()`, one entry per
axis.  `dims()` is the number of axes. -/
structure Roi where
  lo : List Int
  hi : List Int
deriving DecidableEq

/-- The `roi.dims()` accessor. -/
def Roi.dims (r : Roi) : Nat := r.lo.length

/-- The `roi.contains(p)` test of a 3D roi: half-open containment
`begin <= p` and `p < end` on every axis. -/
def Roi.containsPoint (r : Roi) (p : Coord3) : Bool :=
  match r.lo, r.hi with
  | [bz, byy, bx], [ez, ey, ex] =>
    decide (bz ≤ p.1) && decide (p.1 < ez) &&
    decide (byy ≤ p.2.1) && decide (p.2.1 < ey) &&
    decide (bx ≤ p.2.2) && decide (p.2.2 < ex)
  | _, _ => false

/-- The in-memory attribute dictionary of a networkx node: the position keys
`center_z`/`center_y`/`center_x` (present together for a full node, absent for
a stub pulled in as a bare edge endpoint) and the remaining attributes. -/
structure NodeData where
  center : Option Coord3
  attrs : Attrs
deriving DecidableEq

/-- The in-memory `MongoDbSubRag`: its access mode, the networkx node
dictionary (`self.nodes(data=True)`) and the edge list
(`self.edges(data=True)`). -/
structure SubGraph where
  mode : String
  nodes : List (Int × NodeData)
  edges : List (Int × Int × Attrs)
deriving DecidableEq

/-- A persisted document of the `nodes` collection:
`{'id': ..., 'center_z': ..., 'center_y': ..., 'center_x': ..., attrs}`.
The `center` fields are absent in a document synced from a node that carried
no position attributes. -/
structure NodeRecord where
  id : Int
  center : Option Coord3
  attrs : Attrs
deriving DecidableEq

/-- A persisted document of the `edges` collection: `{'u': ..., 'v': ..., attrs}`. -/
structure EdgeRecord where
  u : Int
  v : Int
  attrs : Attrs
deriving DecidableEq

/-- The store round trips the module can issue. -/
inductive StoreOp where
  | dropDb
  | listDbs
  | createIndex
  | findNodes
  | findEdges
  | insertNodes
  | insertEdges
deriving DecidableEq

/-- The state of the named database: whether it exists on the server, the two
collections, and the indexes created on each. -/
structure MongoState where
  dbExists : Bool
  nodes : List NodeRecord
  edges : List EdgeRecord
  nodeIndexes : List String
  edgeIndexes : List String
deriving DecidableEq

/-- Does the unique key of `r` collide with a document already in `coll`? -/
def hasKey {R K : Type} [DecidableEq K] (key : R → K) (coll : List R) (r : R) : Bool :=
  coll.any (fun x => decide (key x = key r))

/-- pymongo `insert_many` against a collection with a unique index on `key`.
With `ordered = true` (pymongo's default) the first duplicate key stops the
batch: documents before it are inserted, it and all later documents are not.
With `ordered = false` every document is attempted and the conflicting ones
are collected.  Returns the final collection and the conflicting documents; a
nonempty second component corresponds to a raised `BulkWriteError`. -/
def insertManyMongo {R K : Type} [DecidableEq K] (ordered : Bool) (key : R → K) :
    List R → List R → List R × List R
  | coll, [] => (coll, [])
  | coll, r :: rs =>
    if hasKey key coll r then
      if ordered then (coll, [r])
      else
        let p := insertManyMongo ordered key coll rs
        (p.1, r :: p.2)
    else insertManyMongo ordered key (coll ++ [r]) rs

/-- Every document of `batch` inserts cleanly into `coll`: no key collides
with `coll` nor with an earlier document of the batch. -/
def freshAll {R K : Type} [DecidableEq K] (key : R → K) : List R → List R → Bool
  | _, [] => true
  | coll, r :: rs => !hasKey key coll r && freshAll key (coll ++ [r]) rs

/-- The networkx node lookup `self.node[i]`.  (In the source an edge endpoint
is always a node of the graph, so the `none` branch is never taken there.) -/
def lookupNode : List (Int × NodeData) → Int → Option NodeData
  | [], _ => none
  | p :: rest, i => if p.1 = i then some p.2 else lookupNode rest i

/-- `MongoDbSubRag._contains(roi, edge)`: look up the minimum endpoint
`u = edge[0]`; a node without the `center_z` key is known to lie outside the
sub-RAG roi and is reported not contained; otherwise test
`roi.contains(Coordinate((center_z, center_y, center_x)))`. -/
def sub_contains (g : SubGraph) (roi : Roi) (e : Int × Int) : Bool :=
  match lookupNode g.nodes e.1 with
  | none => false
  | some min_node =>
    match min_node.center with
    | none => false
    | some mc => roi.containsPoint mc

/-- One iteration of the `sync_edges` loop body: canonicalize
`u, v = min(u, v), max(u, v)`, skip the edge unless
`self._contains(roi, (u, v))`, else build the document `{'u': u, 'v': v, **data}`. -/
def syncEdgeStep (g : SubGraph) (roi : Roi) (e : Int × Int × Attrs) : Option EdgeRecord :=
  let u := min e.1 e.2.1
  let v := max e.1 e.2.1
  if sub_contains g roi (u, v) then some ⟨u, v, e.2.2⟩ else none

/-- The batch `edges` that `MongoDbSubRag.sync_edges` hands to `insert_many`. -/
def syncEdgesRecords (g : SubGraph) (roi : Roi) : List EdgeRecord :=
  g.edges.filterMap (syncEdgeStep g roi)

/-- The unique key of the `edges` collection: the `(u, v)` pair
(unique index `incident`). -/
def edgeKey (e : EdgeRecord) : Int × Int := (e.u, e.v)

/-- The outcome of one sync call: the new store state, the store round trips
the call made, and the raised error, if any. -/
structure SyncOut where
  store : MongoState
  ops : List StoreOp
  err : Option String
deriving DecidableEq

/-- `MongoDbSubRag.sync_edges(roi)`: refuse in read-only mode before touching
the store; build the owned batch; an empty batch returns without store
interaction; otherwise `insert_many` (pymongo default, ordered) and surface a
`BulkWriteError` on a duplicate key. -/
def sync_edges (g : SubGraph) (roi : Roi) (s : MongoState) : SyncOut :=
  if g.mode = "r" then ⟨s, [], some "Trying to write to read-only DB"⟩
  else
    let batch := syncEdgesRecords g roi
    if batch.length = 0 then ⟨s, [], none⟩
    else
      let r := insertManyMongo true edgeKey s.edges batch
      ⟨{ s with dbExists := true, edges := r.1 }, [StoreOp.insertEdges],
        if r.2.isEmpty then none else some "BulkWriteError"⟩

/-- The batch `nodes` that `MongoDbSubRag.sync_nodes` hands to `insert_many`:
one document `{'id': int(node_id), **data}` per networkx node — whatever the
node's data, position attributes present or not. -/
def syncNodesRecords (g : SubGraph) : List NodeRecord :=
  g.nodes.map (fun p => ⟨p.1, p.2.center, p.2.attrs⟩)

/-- `MongoDbSubRag.sync_nodes()`: refuse in read-only mode before touching the
store; an empty batch returns without store interaction; otherwise
`insert_many` (pymongo default, ordered) and surface a `BulkWriteError` on a
duplicate key. -/
def sync_nodes (g : SubGraph) (s : MongoState) : SyncOut :=
  if g.mode = "r" then ⟨s, [], some "Trying to write to read-only DB"⟩
  else
    let batch := syncNodesRecords g
    if batch.length = 0 then ⟨s, [], none⟩
    else
      let r := insertManyMongo true NodeRecord.id s.nodes batch
      ⟨{ s with dbExists := true, nodes := r.1 }, [StoreOp.insertNodes],
        if r.2.isEmpty then none else some "BulkWriteError"⟩

/-- `client.drop_database(db_name)`. -/
def dropDatabase (_s : MongoState) : MongoState := ⟨false, [], [], [], []⟩

/-- `MongoDbRagProvider.__setup_db`: create the `position` index and the
unique `id` index on `nodes` and the unique `incident` index on `edges`;
creating them brings the database into existence on the server. -/
def setupDb (s : MongoState) : MongoState :=
  { s with dbExists := true,
           nodeIndexes := s.nodeIndexes ++ ["position", "id"],
           edgeIndexes := s.edgeIndexes ++ ["incident"] }

/-- `MongoDbRagProvider.__init__`: connect; in mode `'w'` drop the database;
then, whatever the mode, list the database names and run `__setup_db` when the
named database does not exist. -/
def providerInit (mode : String) (s : MongoState) : MongoState × List StoreOp :=
  let d := if mode = "w" then (dropDatabase s, [StoreOp.dropDb])
           else (s, ([] : List StoreOp))
  if d.1.dbExists then (d.1, d.2 ++ [StoreOp.listDbs])
  else (setupDb d.1,
    d.2 ++ [StoreOp.listDbs, StoreOp.createIndex, StoreOp.createIndex, StoreOp.createIndex])

/-- `MongoDbRagProvider.__read_nodes(roi)`: the range query
`{'center_z': {'$gte': bz, '$lt': ez}, 'center_y': ..., 'center_x': ...}`.
A document without the position fields matches no range bound.  (The source
destructures `roi.get_begin()` into three axes; it is only called after the
3D assert, so the fallthrough branch is unreachable there.) -/
def readNodes (s : MongoState) (roi : Roi) : List NodeRecord :=
  match roi.lo, roi.hi with
  | [bz, byy, bx], [ez, ey, ex] =>
    s.nodes.filter (fun n =>
      match n.center with
      | some c =>
        decide (bz ≤ c.1) && decide (c.1 < ez) &&
        decide (byy ≤ c.2.1) && decide (c.2.1 < ey) &&
        decide (bx ≤ c.2.2) && decide (c.2.2 < ex)
      | none => false)
  | _, _ => []

/-- networkx `add_edges_from` adds any edge endpoint that is not yet a node of
the graph as a bare node with an empty attribute dictionary — a stub. -/
def addStubNode (ns : List (Int × NodeData)) (i : Int) : List (Int × NodeData) :=
  match lookupNode ns i with
  | some _ => ns
  | none => ns ++ [(i, ⟨none, []⟩)]

/-- Walk of `add_edges_from(edge_list)` over the node table: both endpoints of
every edge are added when missing. -/
def addEdgeNodes (ns : List (Int × NodeData)) :
    List (Int × Int × Attrs) → List (Int × NodeData)
  | [] => ns
  | e :: es => addEdgeNodes (addStubNode (addStubNode ns e.1) e.2.1) es

/-- The sub-RAG assembled by `MongoDbRagProvider.__getitem__` past the 3D
assert: range-query the nodes, strip the `id` key into the node attribute
dictionaries, query the edges whose `u` is `$in` the fetched id list, then
`add_nodes_from(node_list)` and `add_edges_from(edge_list)`. -/
def extractGraph (s : MongoState) (mode : String) (roi : Roi) : SubGraph :=
  let nodeList : List (Int × NodeData) :=
    (readNodes s roi).map (fun n => (n.id, ⟨n.center, n.attrs⟩))
  let nodeIds : List Int := nodeList.map Prod.fst
  let edgeList : List (Int × Int × Attrs) :=
    (s.edges.filter (fun e => decide (e.u ∈ nodeIds))).map (fun e => (e.u, e.v, e.attrs))
  ⟨mode, addEdgeNodes nodeList edgeList, edgeList⟩

/-- `MongoDbRagProvider.__getitem__(roi)`: the assert `roi.dims() == 3` runs
before any connection or query; past it, the two queries run and the graph is
assembled, bound to the provider's mode. -/
def getitem (s : MongoState) (mode : String) (roi : Roi) :
    Except String SubGraph × List StoreOp :=
  if roi.dims = 3 then
    (Except.ok (extractGraph s mode roi), [StoreOp.findNodes, StoreOp.findEdges])
  else (Except.error "MongoDbRagProvider backend does only 3D", [])

/-- The region `[0, 5)` on every axis. -/
def roiA : Roi := ⟨[0, 0, 0], [5, 5, 5]⟩

/-- The region `[5, 10)` on every axis; disjoint from `roiA`. -/
def roiB : Roi := ⟨[5, 5, 5], [10, 10, 10]⟩

/-- A two-dimensional region. -/
def roi2d : Roi := ⟨[0, 0], [5, 5]⟩

/-- An existing, empty database with the schema of `__setup_db` in place. -/
def storeEmpty : MongoState := ⟨true, [], [], ["position", "id"], ["incident"]⟩

/-- A server on which the named database does not exist. -/
def storeNoDb : MongoState := ⟨false, [], [], [], []⟩

/-- An existing database already holding the edge document `(1, 2)`. -/
def storeConflict : MongoState :=
  { storeEmpty with edges := [⟨1, 2, []⟩] }

/-- A store with node 1 at `(1,1,1)`, node 2 at `(9,9,9)` and the edge
`(1, 2)`: extracting `roiA` fetches node 1 only and pulls node 2 in as a
stub. -/
def storeBoundary : MongoState :=
  { storeEmpty with
      nodes := [⟨1, some (1, 1, 1), []⟩, ⟨2, some (9, 9, 9), []⟩],
      edges := [⟨1, 2, []⟩] }

/-- A graph with full node 1 in `roiA`, stub node 2, and the edge `(1, 2)`. -/
def gEdge : SubGraph :=
  ⟨"r+", [(1, ⟨some (1, 1, 1), []⟩), (2, ⟨none, []⟩)], [(1, 2, [])]⟩

/-- A graph with full node 1 at `(1,1,1)` and full node 7 at `(7,7,7)`, and
the boundary edge `(1, 7)`. -/
def gMixed : SubGraph :=
  ⟨"r+", [(1, ⟨some (1, 1, 1), []⟩), (7, ⟨some (7, 7, 7), []⟩)], [(1, 7, [])]⟩

/-- A graph whose three full nodes sit in `roiA` and whose two edges `(1,2)`
and `(1,3)` are both owned by `roiA`. -/
def gOwned : SubGraph :=
  ⟨"r+",
   [(1, ⟨some (1, 1, 1), []⟩), (2, ⟨some (2, 2, 2), []⟩), (3, ⟨some (3, 3, 3), []⟩)],
   [(1, 2, []), (1, 3, [])]⟩

/-- A nonempty graph bound to read-only mode. -/
def gReadOnly : SubGraph := ⟨"r", [(1, ⟨some (1, 1, 1), []⟩)], []⟩

/-- Claim C9: extraction of a region whose dimensionality is not 3 fails with
the precondition violation and issues no query to the store. -/
theorem extract_rejects_non3d (s : MongoState) (mode : String) (roi : Roi)
    (h : roi.dims ≠ 3) :
    getitem s mode roi = (Except.error "MongoDbRagProvider backend does only 3D", []) := by
  simp [getitem, h]

/-- Witness for C9: a 2D region is rejected and no query is issued. -/
theorem extract_rejects_non3d_witness :
    getitem storeEmpty "r+" roi2d =
      (Except.error "MongoDbRagProvider backend does only 3D", []) :=
  extract_rejects_non3d storeEmpty "r+" roi2d (by decide)

/-- Claim C8: on a read-only-mode binding, both sync calls fail with the
precondition violation, leave the store untouched and issue no store
operation, whatever the graph contents. -/
theorem sync_readonly_rejected (g : SubGraph) (roi : Roi) (s : MongoState)
    (h : g.mode = "r") :
    sync_edges g roi s = ⟨s, [], some "Trying to write to read-only DB"⟩ ∧
    sync_nodes g s = ⟨s, [], some "Trying to write to read-only DB"⟩ := by
  constructor <;> simp [sync_edges, sync_nodes, h]

/-- Witness for C8 at a concrete nonempty read-only graph. -/
theorem sync_readonly_rejected_witness :
    sync_edges gReadOnly roiA storeEmpty =
      ⟨storeEmpty, [], some "Trying to write to read-only DB"⟩ ∧
    sync_nodes gReadOnly storeEmpty =
      ⟨storeEmpty, [], some "Trying to write to read-only DB"⟩ :=
  sync_readonly_rejected gReadOnly roiA storeEmpty rfl

/-- Specification of `_contains` as a predicate on the minimum endpoint of
the pair it is given. -/
theorem sub_contains_spec (g : SubGraph) (roi : Roi) (p : Int × Int) :
    sub_contains g roi p = true ↔
      ∃ nd c, lookupNode g.nodes p.1 = some nd ∧ nd.center = some c ∧
        roi.containsPoint c = true := by
  unfold sub_contains
  cases h : lookupNode g.nodes p.1 with
  | none => simp
  | some nd =>
    cases hc : nd.center with
    | none => simp [hc]
    | some c =>
      obtain ⟨z, y, x⟩ := c
      simp [hc]
      constructor
      · intro hcp
        exact ⟨z, y, x, ⟨rfl, rfl, rfl⟩, hcp⟩
      · rintro ⟨a, b2, c2, ⟨rfl, rfl, rfl⟩, hcp⟩
        exact hcp

/-- The half-open containment test of a 3D roi, read off its bounds. -/
theorem containsPoint_spec (roi : Roi) (bz byy bx ez ey ex : Int)
    (hlo : roi.lo = [bz, byy, bx]) (hhi : roi.hi = [ez, ey, ex]) (p : Coord3) :
    roi.containsPoint p = true ↔
      (bz ≤ p.1 ∧ p.1 < ez ∧ byy ≤ p.2.1 ∧ p.2.1 < ey ∧ bx ≤ p.2.2 ∧ p.2.2 < ex) := by
  unfold Roi.containsPoint
  rw [hlo, hhi]
  simp [and_assoc]

/-- Membership in the `sync_edges` batch comes from some in-memory edge. -/
theorem mem_syncEdgesRecords_iff (g : SubGraph) (roi : Roi) (r : EdgeRecord) :
    r ∈ syncEdgesRecords g roi ↔ ∃ e ∈ g.edges, syncEdgeStep g roi e = some r := by
  simp [syncEdgesRecords, List.mem_filterMap]

/-- What one loop iteration of `sync_edges` produces. -/
theorem syncEdgeStep_eq_some (g : SubGraph) (roi : Roi) (e : Int × Int × Attrs)
    (r : EdgeRecord) :
    syncEdgeStep g roi e = some r ↔
      (r.u = min e.1 e.2.1 ∧ r.v = max e.1 e.2.1 ∧ r.attrs = e.2.2 ∧
        sub_contains g roi (min e.1 e.2.1, max e.1 e.2.1) = true) := by
  obtain ⟨ru, rv, ra⟩ := r
  by_cases h : sub_contains g roi (min e.1 e.2.1, max e.1 e.2.1) = true
  · simp [syncEdgeStep, h, eq_comm, and_comm]
  · simp [syncEdgeStep, h]

/-- A record of the `sync_edges` batch passed the ownership test on its own
canonical pair. -/
theorem mem_syncEdgesRecords_contains (g : SubGraph) (roi : Roi) (r : EdgeRecord)
    (h : r ∈ syncEdgesRecords g roi) : sub_contains g roi (r.u, r.v) = true := by
  obtain ⟨e, _, hstep⟩ := (mem_syncEdgesRecords_iff g roi r).mp h
  obtain ⟨h1, h2, _, h4⟩ := (syncEdgeStep_eq_some g roi e r).mp hstep
  rw [h1, h2]
  exact h4

/-- Claim C1: for an in-memory edge `(u, v)` with `u < v` and a 3D region,
`sync_edges(roi)` puts the edge into its insert batch exactly when the node
with id `u` carries position attributes and its center lies in the region
half-open on all three axes; a stub minimum endpoint, or a center outside the
region, makes this call skip the edge. -/
theorem syncEdges_ownership_iff (g : SubGraph) (roi : Roi) (u v : Int) (d : Attrs)
    (bz byy bx ez ey ex : Int)
    (hlo : roi.lo = [bz, byy, bx]) (hhi : roi.hi = [ez, ey, ex])
    (huv : u < v) (he : (u, v, d) ∈ g.edges) :
    (⟨u, v, d⟩ : EdgeRecord) ∈ syncEdgesRecords g roi ↔
      ∃ nd z y x, lookupNode g.nodes u = some nd ∧ nd.center = some (z, y, x) ∧
        bz ≤ z ∧ z < ez ∧ byy ≤ y ∧ y < ey ∧ bx ≤ x ∧ x < ex := by
  constructor
  · intro hmem
    obtain ⟨e, _, hstep⟩ := (mem_syncEdgesRecords_iff g roi _).mp hmem
    obtain ⟨h1, _, _, h4⟩ := (syncEdgeStep_eq_some g roi e _).mp hstep
    rw [← h1] at h4
    obtain ⟨nd, c, hl, hc, hcp⟩ := (sub_contains_spec g roi _).mp h4
    obtain ⟨z, y, x⟩ := c
    have hb := (containsPoint_spec roi bz byy bx ez ey ex hlo hhi (z, y, x)).mp hcp
    exact ⟨nd, z, y, x, hl, hc, hb.1, hb.2.1, hb.2.2.1, hb.2.2.2.1,
      hb.2.2.2.2.1, hb.2.2.2.2.2⟩
  · rintro ⟨nd, z, y, x, hl, hc, hb1, hb2, hb3, hb4, hb5, hb6⟩
    apply (mem_syncEdgesRecords_iff g roi _).mpr
    refine ⟨(u, v, d), he, ?_⟩
    apply (syncEdgeStep_eq_some g roi _ _).mpr
    have hmin : min u v = u := min_eq_left huv.le
    have hmax : max u v = v := max_eq_right huv.le
    refine ⟨by simp [hmin], by simp [hmax], rfl, ?_⟩
    apply (sub_contains_spec g roi _).mpr
    refine ⟨nd, (z, y, x), ?_, hc, ?_⟩
    · simpa [hmin] using hl
    · exact (containsPoint_spec roi bz byy bx ez ey ex hlo hhi (z, y, x)).mpr
        ⟨hb1, hb2, hb3, hb4, hb5, hb6⟩

/-- Witness for C1 at a concrete graph: the edge `(1, 2)` whose full minimum
endpoint sits at `(1,1,1)` inside `[0,5)` cubed enters the batch. -/
theorem syncEdges_ownership_iff_witness :
    (⟨1, 2, []⟩ : EdgeRecord) ∈ syncEdgesRecords gEdge roiA :=
  (syncEdges_ownership_iff gEdge roiA 1 2 [] 0 0 0 5 5 5 rfl rfl (by decide)
      (by decide)).mpr
    ⟨⟨some (1, 1, 1), []⟩, 1, 1, 1, by decide, rfl, by decide, by decide, by decide,
      by decide, by decide, by decide⟩

/-- Claim C10: `sync_edges` re-canonicalizes every in-memory edge before both
the ownership test and the record construction: every batched record satisfies
`u <= v`, the loop body is insensitive to the stored orientation of the edge,
and a produced record is always the `(min, max)` reordering whose ownership
test consulted the minimum-id endpoint. -/
theorem syncEdges_canonicalizes (g : SubGraph) (roi : Roi) :
    (∀ r ∈ syncEdgesRecords g roi, r.u ≤ r.v) ∧
    (∀ a b d, syncEdgeStep g roi (a, b, d) = syncEdgeStep g roi (b, a, d)) ∧
    (∀ a b d r, syncEdgeStep g roi (a, b, d) = some r →
      r.u = min a b ∧ r.v = max a b ∧ r.attrs = d ∧
        sub_contains g roi (min a b, max a b) = true) := by
  refine ⟨?_, ?_, ?_⟩
  · intro r hr
    obtain ⟨e, _, hstep⟩ := (mem_syncEdgesRecords_iff g roi r).mp hr
    obtain ⟨h1, h2, _, _⟩ := (syncEdgeStep_eq_some g roi e r).mp hstep
    rw [h1, h2]
    exact min_le_max
  · intro a b d
    simp [syncEdgeStep, min_comm, max_comm]
  · intro a b d r h
    exact (syncEdgeStep_eq_some g roi (a, b, d) r).mp h

/-- Witness for C10: a batched record with `u <= v`, and the loop body run on
the swapped orientation `(2, 1)` agreeing with `(1, 2)`. -/
theorem syncEdges_canonicalizes_witness :
    (⟨1, 2, []⟩ : EdgeRecord).u ≤ (⟨1, 2, []⟩ : EdgeRecord).v ∧
    syncEdgeStep gEdge roiA (2, 1, []) = syncEdgeStep gEdge roiA (1, 2, []) :=
  ⟨(syncEdges_canonicalizes gEdge roiA).1 ⟨1, 2, []⟩ (by decide),
    (syncEdges_canonicalizes gEdge roiA).2.1 2 1 []⟩

/-- Claim C2: for two regions with no point contained in both, the batches
selected by `sync_edges` on the same graph are disjoint — the minimum full
endpoint of an edge cannot lie in two non-overlapping regions, so no two such
calls attempt the same canonical edge key. -/
theorem syncEdges_disjoint_regions (g : SubGraph) (r1 r2 : Roi)
    (hdisj : ∀ p : Coord3, ¬(r1.containsPoint p = true ∧ r2.containsPoint p = true))
    (r : EdgeRecord) (h1 : r ∈ syncEdgesRecords g r1) :
    r ∉ syncEdgesRecords g r2 := by
  intro h2
  obtain ⟨nd, c, hl, hc, hcp1⟩ :=
    (sub_contains_spec g r1 _).mp (mem_syncEdgesRecords_contains g r1 r h1)
  obtain ⟨nd2, c2, hl2, hc2, hcp2⟩ :=
    (sub_contains_spec g r2 _).mp (mem_syncEdgesRecords_contains g r2 r h2)
  rw [hl] at hl2
  obtain rfl : nd = nd2 := by injection hl2
  rw [hc] at hc2
  obtain rfl : c = c2 := by injection hc2
  exact hdisj c ⟨hcp1, hcp2⟩

/-- Witness for C2: the boundary edge `(1, 7)` of `gMixed` is selected by the
call for `[0,5)` cubed and therefore not by the call for the disjoint
`[5,10)` cubed. -/
theorem syncEdges_disjoint_regions_witness :
    (⟨1, 7, []⟩ : EdgeRecord) ∉ syncEdgesRecords gMixed roiB :=
  syncEdges_disjoint_regions gMixed roiA roiB
    (by
      intro p hp
      obtain ⟨z, y, x⟩ := p
      simp [roiA, roiB, Roi.containsPoint] at hp
      omega)
    ⟨1, 7, []⟩ (by decide)

/-- Counterexample to claim C3: opening the provider read-only on a server
where the named database does not exist mutates the store — the schema
indexes get created, because `__init__` runs `__setup_db` on a missing
database whatever the mode. -/
theorem readonly_open_mutates_missing_db :
    (providerInit "r" storeNoDb).1 ≠ storeNoDb ∧
    (providerInit "r" storeNoDb).1.nodeIndexes = ["position", "id"] := by
  decide

/-- Claim C3 as amended: a read-only open never drops the database and leaves
the store untouched when the database exists, but — like every non-reset
mode — it creates the schema when the database does not exist; only reset
mode (`'w'`) drops the database, and reset always recreates the schema after
the drop. -/
theorem providerInit_mode_effects (s : MongoState) (m : String) :
    (s.dbExists = true → providerInit "r" s = (s, [StoreOp.listDbs])) ∧
    (s.dbExists = false →
      providerInit "r" s =
        (setupDb s, [StoreOp.listDbs, StoreOp.createIndex, StoreOp.createIndex,
          StoreOp.createIndex])) ∧
    (m ≠ "w" → providerInit m s = providerInit "r" s) ∧
    (StoreOp.dropDb ∈ (providerInit m s).2 → m = "w") ∧
    (m = "w" →
      providerInit m s =
        (setupDb (dropDatabase s), [StoreOp.dropDb, StoreOp.listDbs, StoreOp.createIndex,
          StoreOp.createIndex, StoreOp.createIndex])) := by
  refine ⟨?_, ?_, ?_, ?_, ?_⟩
  · intro h
    simp [providerInit, h]
  · intro h
    simp [providerInit, h]
  · intro h
    simp [providerInit, h]
  · intro h
    by_cases hm : m = "w"
    · exact hm
    · cases hdb : s.dbExists <;> simp [providerInit, hm, hdb] at h
  · intro h
    simp [providerInit, h, dropDatabase]

/-- Witness for the amended C3: a read-only open of an existing database is a
no-op, and a reset open of a missing database drops and recreates. -/
theorem providerInit_mode_effects_witness :
    providerInit "r" storeEmpty = (storeEmpty, [StoreOp.listDbs]) ∧
    providerInit "w" storeNoDb =
      (setupDb (dropDatabase storeNoDb), [StoreOp.dropDb, StoreOp.listDbs,
        StoreOp.createIndex, StoreOp.createIndex, StoreOp.createIndex]) :=
  ⟨(providerInit_mode_effects storeEmpty "r").1 rfl,
    (providerInit_mode_effects storeNoDb "w").2.2.2.2 rfl⟩

/-- Claim C4 fails on the code: `sync_nodes` builds and inserts a document for
every networkx node, including a stub pulled in purely as an out-of-region
edge endpoint.  Extracting `[0,5)` cubed from `storeBoundary` (node 1 inside,
node 2 outside, edge `(1,2)`) yields node 2 as a stub; syncing that graph into
an empty database builds and inserts the positionless document `{'id': 2}`. -/
theorem syncNodes_persists_stub_record :
    (⟨2, none, []⟩ : NodeRecord) ∈
      syncNodesRecords (extractGraph storeBoundary "r+" roiA) ∧
    (sync_nodes (extractGraph storeBoundary "r+" roiA) storeEmpty).store.nodes =
      [⟨1, some (1, 1, 1), []⟩, ⟨2, none, []⟩] := by
  decide

/-- Claim C7: the range query behind `extract` returns exactly the persisted
nodes whose position fields are present and satisfy the half-open bound
`begin <= coord < end` on all three axes. -/
theorem extract_range_correctness (s : MongoState) (roi : Roi) (n : NodeRecord)
    (bz byy bx ez ey ex : Int)
    (hlo : roi.lo = [bz, byy, bx]) (hhi : roi.hi = [ez, ey, ex]) :
    n ∈ readNodes s roi ↔
      (n ∈ s.nodes ∧ ∃ z y x, n.center = some (z, y, x) ∧
        bz ≤ z ∧ z < ez ∧ byy ≤ y ∧ y < ey ∧ bx ≤ x ∧ x < ex) := by
  unfold readNodes
  rw [hlo, hhi]
  rw [List.mem_filter]
  constructor
  · rintro ⟨hmem, hfil⟩
    refine ⟨hmem, ?_⟩
    cases hc : n.center with
    | none =>
      rw [hc] at hfil
      simp at hfil
    | some c =>
      obtain ⟨z, y, x⟩ := c
      rw [hc] at hfil
      simp [and_assoc] at hfil
      exact ⟨z, y, x, rfl, hfil.1, hfil.2.1, hfil.2.2.1, hfil.2.2.2.1,
        hfil.2.2.2.2.1, hfil.2.2.2.2.2⟩
  · rintro ⟨hmem, z, y, x, hc, h1, h2, h3, h4, h5, h6⟩
    refine ⟨hmem, ?_⟩
    rw [hc]
    simp [and_assoc]
    exact ⟨h1, h2, h3, h4, h5, h6⟩

/-- Witness for C7: node 1 at `(1,1,1)` is returned by the range query for
`[0,5)` cubed. -/
theorem extract_range_correctness_witness :
    (⟨1, some (1, 1, 1), []⟩ : NodeRecord) ∈ readNodes storeBoundary roiA :=
  (extract_range_correctness storeBoundary roiA ⟨1, some (1, 1, 1), []⟩
      0 0 0 5 5 5 rfl rfl).mpr
    ⟨by decide, 1, 1, 1, rfl, by decide, by decide, by decide, by decide,
      by decide, by decide⟩

/-- An ordered `insert_many` stops at the first duplicate key: the documents
before it are inserted, it is reported, and nothing after it is attempted. -/
theorem insertMany_ordered_stop {R K : Type} [DecidableEq K] (key : R → K)
    (c : R) (post : List R) :
    ∀ (pre coll : List R), freshAll key coll pre = true →
      hasKey key (coll ++ pre) c = true →
      insertManyMongo true key coll (pre ++ c :: post) = (coll ++ pre, [c]) := by
  intro pre
  induction pre with
  | nil =>
    intro coll _ hc
    rw [List.append_nil] at hc
    simp [insertManyMongo, hc]
  | cons r rs ih =>
    intro coll hfresh hc
    simp only [freshAll, Bool.and_eq_true, Bool.not_eq_true'] at hfresh
    obtain ⟨hr, hrs⟩ := hfresh
    have hc2 : hasKey key ((coll ++ [r]) ++ rs) c = true := by
      rw [List.append_cons] at hc
      exact hc
    have hrec := ih (coll ++ [r]) hrs hc2
    rw [List.cons_append]
    simp only [insertManyMongo, hr]
    simp only [Bool.false_eq_true, if_false]
    rw [hrec, ← List.append_cons]

/-- Counterexample to claim C5: the batched inserts are issued with pymongo's
default ordered semantics.  Against a store already holding the edge `(1,2)`,
the batch `[(1,2), (1,3)]` built by `sync_edges` conflicts on its first
document, and the non-conflicting document `(1,3)` of the same batch is NOT
inserted. -/
theorem syncEdges_ordered_counterexample :
    (⟨1, 3, []⟩ : EdgeRecord) ∈ syncEdgesRecords gOwned roiA ∧
    hasKey edgeKey storeConflict.edges (⟨1, 3, []⟩ : EdgeRecord) = false ∧
    (sync_edges gOwned roiA storeConflict).err = some "BulkWriteError" ∧
    (⟨1, 3, []⟩ : EdgeRecord) ∉ (sync_edges gOwned roiA storeConflict).store.edges := by
  decide

/-- Claim C5 as amended: every batched insert issued by `sync_nodes` and
`sync_edges` uses the store's default ordered semantics — the batch is
attempted in order, the documents before the first conflicting one are
inserted, the first conflict stops the batch and is surfaced as a
`BulkWriteError`, and no later document of the batch is inserted. -/
theorem insert_batches_ordered_semantics :
    (∀ (g : SubGraph) (roi : Roi) (s : MongoState) (pre post : List EdgeRecord)
        (c : EdgeRecord),
      g.mode ≠ "r" → syncEdgesRecords g roi = pre ++ c :: post →
      freshAll edgeKey s.edges pre = true →
      hasKey edgeKey (s.edges ++ pre) c = true →
      (sync_edges g roi s).store.edges = s.edges ++ pre ∧
        (sync_edges g roi s).err = some "BulkWriteError") ∧
    (∀ (g : SubGraph) (s : MongoState) (pre post : List NodeRecord) (c : NodeRecord),
      g.mode ≠ "r" → syncNodesRecords g = pre ++ c :: post →
      freshAll NodeRecord.id s.nodes pre = true →
      hasKey NodeRecord.id (s.nodes ++ pre) c = true →
      (sync_nodes g s).store.nodes = s.nodes ++ pre ∧
        (sync_nodes g s).err = some "BulkWriteError") := by
  constructor
  · intro g roi s pre post c hm hb hf hk
    have hstop := insertMany_ordered_stop edgeKey c post pre s.edges hf hk
    unfold sync_edges
    rw [if_neg hm]
    simp only [hb]
    have hlen : ¬ (pre ++ c :: post).length = 0 := by simp
    rw [if_neg hlen]
    simp [hstop]
  · intro g s pre post c hm hb hf hk
    have hstop := insertMany_ordered_stop NodeRecord.id c post pre s.nodes hf hk
    unfold sync_nodes
    rw [if_neg hm]
    simp only [hb]
    have hlen : ¬ (pre ++ c :: post).length = 0 := by simp
    rw [if_neg hlen]
    simp [hstop]

/-- Witness for the amended C5: the conflicting first document of the batch
of `gOwned` against `storeConflict` stops the whole batch, inserting nothing
and raising. -/
theorem insert_batches_ordered_semantics_witness :
    (sync_edges gOwned roiA storeConflict).store.edges = storeConflict.edges ++ [] ∧
    (sync_edges gOwned roiA storeConflict).err = some "BulkWriteError" :=
  insert_batches_ordered_semantics.1 gOwned roiA storeConflict [] [⟨1, 3, []⟩]
    ⟨1, 2, []⟩ (by decide) (by decide) (by decide) (by decide)

/-- Looking up in a concatenated node table falls through to the tail. -/
theorem lookupNode_append (ns ms : List (Int × NodeData)) (j : Int) :
    lookupNode (ns ++ ms) j =
      match lookupNode ns j with
      | some d => some d
      | none => lookupNode ms j := by
  induction ns with
  | nil => simp [lookupNode]
  | cons p rest ih =>
    by_cases h : p.1 = j <;> simp [lookupNode, h, ih]

/-- What `addStubNode` does to a lookup: it only fills in the stub for its own
id when that id was absent. -/
theorem lookup_addStubNode (ns : List (Int × NodeData)) (i j : Int) :
    lookupNode (addStubNode ns i) j =
      if i = j ∧ lookupNode ns j = none then some ⟨none, []⟩
      else lookupNode ns j := by
  unfold addStubNode
  cases h : lookupNode ns i with
  | some d =>
    by_cases hij : i = j
    · subst hij
      simp [h]
    · simp [hij]
  | none =>
    rw [lookupNode_append]
    cases hj : lookupNode ns j with
    | some d => simp [hj]
    | none =>
      by_cases hij : i = j <;> simp [lookupNode, hij]

/-- `addEdgeNodes` never changes the data of a node already present. -/
theorem lookup_addEdgeNodes_isSome (es : List (Int × Int × Attrs)) :
    ∀ (ns : List (Int × NodeData)) (j : Int), (lookupNode ns j).isSome →
      lookupNode (addEdgeNodes ns es) j = lookupNode ns j := by
  induction es with
  | nil =>
    intro ns j _
    rfl
  | cons e rest ih =>
    intro ns j h
    have h1 : lookupNode (addStubNode ns e.1) j = lookupNode ns j := by
      rw [lookup_addStubNode, if_neg]
      rintro ⟨_, hn⟩
      rw [hn] at h
      simp at h
    have h2 : lookupNode (addStubNode (addStubNode ns e.1) e.2.1) j = lookupNode ns j := by
      rw [lookup_addStubNode, if_neg, h1]
      rintro ⟨_, hn⟩
      rw [h1] at hn
      rw [hn] at h
      simp at h
    show lookupNode (addEdgeNodes (addStubNode (addStubNode ns e.1) e.2.1) rest) j = _
    rw [ih _ j (by rw [h2]; exact h), h2]

/-- An id absent from the fetched node table but occurring as the second
endpoint of some edge of the list ends up as a stub node. -/
theorem lookup_addEdgeNodes_stub (es : List (Int × Int × Attrs)) :
    ∀ (ns : List (Int × NodeData)) (v : Int), lookupNode ns v = none →
      v ∈ es.map (fun e => e.2.1) →
      lookupNode (addEdgeNodes ns es) v = some ⟨none, []⟩ := by
  induction es with
  | nil =>
    intro ns v _ hm
    simp at hm
  | cons e rest ih =>
    intro ns v hv hm
    show lookupNode (addEdgeNodes (addStubNode (addStubNode ns e.1) e.2.1) rest) v = _
    by_cases h1 : e.1 = v
    · have hs1 : lookupNode (addStubNode ns e.1) v = some ⟨none, []⟩ := by
        rw [lookup_addStubNode, if_pos ⟨h1, hv⟩]
      have hs2 : lookupNode (addStubNode (addStubNode ns e.1) e.2.1) v = some ⟨none, []⟩ := by
        rw [lookup_addStubNode, if_neg, hs1]
        rintro ⟨_, hn⟩
        rw [hs1] at hn
        cases hn
      rw [lookup_addEdgeNodes_isSome rest _ v (by rw [hs2]; rfl), hs2]
    · by_cases h2 : e.2.1 = v
      · have hs1 : lookupNode (addStubNode ns e.1) v = none := by
          rw [lookup_addStubNode, if_neg]
          · exact hv
          · rintro ⟨hij, _⟩
            exact h1 hij
        have hs2 : lookupNode (addStubNode (addStubNode ns e.1) e.2.1) v
            = some ⟨none, []⟩ := by
          rw [lookup_addStubNode, if_pos ⟨h2, hs1⟩]
        rw [lookup_addEdgeNodes_isSome rest _ v (by rw [hs2]; rfl), hs2]
      · have hm2 : v ∈ rest.map (fun e => e.2.1) := by
          rw [List.map_cons, List.mem_cons] at hm
          rcases hm with h | h
          · exact absurd h.symm h2
          · exact h
        have hs2 : lookupNode (addStubNode (addStubNode ns e.1) e.2.1) v = none := by
          have hs1 : lookupNode (addStubNode ns e.1) v = none := by
            rw [lookup_addStubNode, if_neg]
            · exact hv
            · rintro ⟨hij, _⟩
              exact h1 hij
          rw [lookup_addStubNode, if_neg]
          · exact hs1
          · rintro ⟨hij, _⟩
            exact h2 hij
        exact ih _ v hs2 hm2

/-- An id absent from the node table looks up to nothing. -/
theorem lookupNode_eq_none (ns : List (Int × NodeData)) (j : Int)
    (h : j ∉ ns.map Prod.fst) : lookupNode ns j = none := by
  induction ns with
  | nil => rfl
  | cons p rest ih =>
    simp only [List.map_cons, List.mem_cons, not_or] at h
    obtain ⟨h1, h2⟩ := h
    have hne : p.1 ≠ j := fun he => h1 he.symm
    simp [lookupNode, hne, ih h2]

/-- The assembled sub-RAG, with the fetched node-id list written through the
record accessor. -/
theorem extractGraph_eq (s : MongoState) (mode : String) (roi : Roi) :
    extractGraph s mode roi =
      ⟨mode,
        addEdgeNodes ((readNodes s roi).map (fun n => (n.id, ⟨n.center, n.attrs⟩)))
          ((s.edges.filter (fun e =>
            decide (e.u ∈ (readNodes s roi).map NodeRecord.id))).map
            (fun e => (e.u, e.v, e.attrs))),
        (s.edges.filter (fun e =>
          decide (e.u ∈ (readNodes s roi).map NodeRecord.id))).map
          (fun e => (e.u, e.v, e.attrs))⟩ := by
  unfold extractGraph
  simp only [List.map_map]
  rfl

/-- Claim C6: extraction returns every persisted edge whose canonical lower
endpoint `u` is among the ids returned by the range query — including edges
whose other endpoint lies outside the region — and such an out-of-region
endpoint appears in the returned graph as a stub node with no position fields
and no attributes. -/
theorem extract_boundary_completeness (s : MongoState) (mode : String) (roi : Roi)
    (e : EdgeRecord) (h3 : roi.dims = 3) (he : e ∈ s.edges)
    (hu : e.u ∈ (readNodes s roi).map NodeRecord.id) :
    (getitem s mode roi).1 = Except.ok (extractGraph s mode roi) ∧
    (e.u, e.v, e.attrs) ∈ (extractGraph s mode roi).edges ∧
    (e.v ∉ (readNodes s roi).map NodeRecord.id →
      lookupNode (extractGraph s mode roi).nodes e.v = some ⟨none, []⟩) := by
  have hef : e ∈ s.edges.filter (fun e =>
      decide (e.u ∈ (readNodes s roi).map NodeRecord.id)) :=
    List.mem_filter.mpr ⟨he, by simpa using hu⟩
  refine ⟨by simp [getitem, h3], ?_, ?_⟩
  · rw [extractGraph_eq]
    exact List.mem_map_of_mem _ hef
  · intro hv
    rw [extractGraph_eq]
    have hids : ((readNodes s roi).map
        (fun n => ((n.id : Int), (⟨n.center, n.attrs⟩ : NodeData)))).map Prod.fst =
        (readNodes s roi).map NodeRecord.id := by
      rw [List.map_map]
      rfl
    have hnone : lookupNode ((readNodes s roi).map
        (fun n => (n.id, ⟨n.center, n.attrs⟩))) e.v = none := by
      apply lookupNode_eq_none
      rw [hids]
      exact hv
    have hvmem : e.v ∈ ((s.edges.filter (fun e =>
        decide (e.u ∈ (readNodes s roi).map NodeRecord.id))).map
        (fun e => (e.u, e.v, e.attrs))).map (fun t => t.2.1) :=
      List.mem_map_of_mem _ (List.mem_map_of_mem _ hef)
    exact lookup_addEdgeNodes_stub _ _ e.v hnone hvmem

/-- Witness for C6: extracting `[0,5)` cubed from `storeBoundary` returns the
boundary edge `(1, 2)` and node 2 as a bare stub. -/
theorem extract_boundary_completeness_witness :
    ((1 : Int), (2 : Int), ([] : Attrs)) ∈ (extractGraph storeBoundary "r+" roiA).edges ∧
    lookupNode (extractGraph storeBoundary "r+" roiA).nodes 2 = some ⟨none, []⟩ :=
  ⟨(extract_boundary_completeness storeBoundary "r+" roiA ⟨1, 2, []⟩ (by decide)
      (by decide) (by decide)).2.1,
    (extract_boundary_completeness storeBoundary "r+" roiA ⟨1, 2, []⟩ (by decide)
      (by decide) (by decide)).2.2 (by decide)⟩
